import Mathlib

/-!
Shallow embedding of `hdlConvertor/hdlAst/_typeDefs.py`, the type-representation
layer of the hdlConvertor HDL front end, together with proofs about the claims
of its specification.

Conventions of the embedding:
* Python `int` is Lean `Int`, Python `bool` is `Bool`, Python `str` is `String`,
  Python `None`-able attributes are `Option` fields.
* Python dictionaries in this file are insertion-ordered; they are embedded as
  association lists (`List (key × value)`).
* Every `__slots__` attribute that `__init__` assigns unconditionally is a plain
  structure field.  `HdlClassDef` is the one class whose `__init__` leaves a
  declared slot (`is_interface`) unassigned; reading an unassigned slot raises
  `AttributeError` in Python, so every slot of `HdlClassDef` is embedded as an
  `Option`-wrapped cell, `none` meaning "slot never assigned, read raises".
* The per-instance mutable containers of `HdlConstraint` (`indexes`, a Python
  list object, and `field_cons`, a Python dict object) are embedded as addresses
  into an explicit heap (`PyState`), so that aliasing between separately
  constructed nodes is expressible and refutable.
-/

/-- Modelled from the spec: bounds, parent-type references and attribute
descriptors are "expressions, not yet evaluated", stored structurally.  The
expression classes live in `hdlAst._expr`, outside the covered source; any
inhabited type with decidable equality is a faithful stand-in for the purposes
of this layer, which only stores such values. -/
inductive iHdlExpr where
  | ident : String → iHdlExpr
  | lit : Int → iHdlExpr
deriving DecidableEq, Repr

/-- Modelled from the spec: a generic AST member object (`iHdlObj` of
`hdlAst._bases`, outside the covered source); this layer only stores such
values in member lists. -/
def iHdlObj := iHdlExpr
deriving instance DecidableEq, Repr for iHdlObj

/-- Modelled from the spec: range direction is "one of exactly two values"
(ascending/descending). -/
inductive HdlRangeDirection where
  | to : HdlRangeDirection
  | downto : HdlRangeDirection
deriving DecidableEq, Repr

/-- Class `HdlSimpleRange`: simple range A:B, A to B, A DOWNTO B.
`__init__` sets `left`, `dir` and `right` to `None`. -/
structure HdlSimpleRange where
  left : Option iHdlExpr
  dir : Option HdlRangeDirection
  right : Option iHdlExpr
deriving DecidableEq, Repr

/-- Constructor `HdlSimpleRange()`. -/
def HdlSimpleRange.init : HdlSimpleRange :=
  { left := none, dir := none, right := none }

mutual
/-- Class `HdlRange`: combined concept of an HDL range, with slots
`subtype`, `range`, `attribute` (the Lean field is `attrib` because
`attribute` is a Lean keyword).  `__init__(subtype=None, rng=None,
attribute=None)` stores the three arguments, nothing more. -/
inductive HdlRange where
  | mk3 : Option HdlSubtype → Option HdlSimpleRange → Option iHdlExpr → HdlRange

/-- Class `HdlSubtype`: subtype indication, slots `parent_type`, `constraint`;
`__init__(parent_type=None, constraint=None)` stores the two arguments. -/
inductive HdlSubtype where
  | mk2 : Option iHdlExpr → Option HdlConstraint → HdlSubtype

/-- Class `HdlConstraint`, the node value: slots `range`, `indexes`, `element`,
`field_cons`.  `indexes` (a Python list object) and `field_cons` (a Python
dict object) are mutable containers identified by their heap address (`Nat`);
`range` and `element` hold object references directly. -/
inductive HdlConstraint where
  | mkRaw : Option HdlRange → Nat → Option HdlConstraint → Nat → HdlConstraint
end

/-- Field `subtype` of `HdlRange`. -/
def HdlRange.subtype : HdlRange → Option HdlSubtype
  | .mk3 s _ _ => s

/-- Field `range` of `HdlRange`. -/
def HdlRange.range : HdlRange → Option HdlSimpleRange
  | .mk3 _ r _ => r

/-- Field `attribute` of `HdlRange`. -/
def HdlRange.attrib : HdlRange → Option iHdlExpr
  | .mk3 _ _ a => a

/-- Field `range` of `HdlConstraint`. -/
def HdlConstraint.range : HdlConstraint → Option HdlRange
  | .mkRaw r _ _ _ => r

/-- Field `indexes` of `HdlConstraint` (heap address of its list object). -/
def HdlConstraint.indexes : HdlConstraint → Nat
  | .mkRaw _ i _ _ => i

/-- Field `element` of `HdlConstraint`. -/
def HdlConstraint.element : HdlConstraint → Option HdlConstraint
  | .mkRaw _ _ e _ => e

/-- Field `field_cons` of `HdlConstraint` (heap address of its dict object). -/
def HdlConstraint.field_cons : HdlConstraint → Nat
  | .mkRaw _ _ _ f => f

/-- Number of populated alternatives of an `HdlRange` node (the spec names
three alternatives: subtype reference, simple range, attribute descriptor). -/
def HdlRange.populatedCount (r : HdlRange) : Nat :=
  (if r.subtype.isSome then 1 else 0)
    + (if r.range.isSome then 1 else 0)
    + (if r.attrib.isSome then 1 else 0)

/-- The heap of Python container objects used by `HdlConstraint` instances:
one arena for list objects (`indexes`, holding index constraints) and one for
insertion-ordered dict objects (`field_cons`, mapping field name to
constraint).  A container's address is its index in the arena. -/
structure PyState where
  listHeap : List (List HdlRange)
  dictHeap : List (List (String × HdlConstraint))

/-- Constructor `HdlConstraint()`, run against heap `s`: it sets
`range = None`, `element = None` and allocates a fresh empty list for
`indexes` and a fresh empty dict for `field_cons` (`self.indexes = []`,
`self.field_cons = {}` allocate per instance). -/
def HdlConstraint.init (s : PyState) : HdlConstraint × PyState :=
  (HdlConstraint.mkRaw none s.listHeap.length none s.dictHeap.length,
   { listHeap := s.listHeap ++ [[]], dictHeap := s.dictHeap ++ [[]] })

/-- Read the list object at constraint `c`'s `indexes` slot. -/
def PyState.getIndexes (s : PyState) (c : HdlConstraint) : Option (List HdlRange) :=
  s.listHeap[c.indexes]?

/-- Read the dict object at constraint `c`'s `field_cons` slot. -/
def PyState.getFieldCons (s : PyState) (c : HdlConstraint) :
    Option (List (String × HdlConstraint)) :=
  s.dictHeap[c.field_cons]?

/-- Mutation `c.indexes.append(x)`: mutate the list object addressed by `c.indexes`
in place. -/
def PyState.appendIndex (s : PyState) (c : HdlConstraint) (x : HdlRange) : PyState :=
  { s with
    listHeap := s.listHeap.set c.indexes ((s.listHeap[c.indexes]?.getD []) ++ [x]) }

/-- Mutation `c.field_cons[k] = v`: mutate the dict object addressed by `c.field_cons`
in place (insertion at the end for a fresh key; the claims only use fresh
keys, which is what appending models). -/
def PyState.insertFieldCon (s : PyState) (c : HdlConstraint) (k : String)
    (v : HdlConstraint) : PyState :=
  { s with
    dictHeap := s.dictHeap.set c.field_cons ((s.dictHeap[c.field_cons]?.getD []) ++ [(k, v)]) }

/-- Class `HdlTypeDec`: HDL type declaration, slots `subtype`, `ids`, `base_type`,
`isUnion`, `indexes`, `elem_type`, `fields` (plus `name` from
`iHdlObjWithName`).  The value types of `ids` and `fields` (Python dicts) and
of `elem_type` are not pinned down in this file; the payloads here are the
generic expression/subtype values this layer stores. -/
structure HdlTypeDec where
  name : Option String
  subtype : Option HdlSubtype
  ids : List (String × Option iHdlExpr)
  base_type : Option iHdlExpr
  isUnion : Bool
  indexes : Option (List HdlRange)
  elem_type : Option iHdlExpr
  fields : List (String × Option iHdlExpr)

/-- Constructor `HdlTypeDec()`: `name` is set to `None` by the
`iHdlObjWithName` base `__init__` (modelled from the spec: "optional name"),
then `subtype = None`, `ids = {}`, `base_type = None`, `isUnion = False`,
`indexes = None`, `elem_type = None`, `fields = {}`. -/
def HdlTypeDec.init : HdlTypeDec :=
  { name := none, subtype := none, ids := [], base_type := none,
    isUnion := false, indexes := none, elem_type := none, fields := [] }

/-- The alias shape of a type declaration: its subtype is set. -/
def HdlTypeDec.aliasShape (d : HdlTypeDec) : Bool := d.subtype.isSome

/-- The array shape of a type declaration: element type and indexes are set. -/
def HdlTypeDec.arrayShape (d : HdlTypeDec) : Bool :=
  d.elem_type.isSome && d.indexes.isSome

/-- The record/union shape of a type declaration: its field mapping is
non-empty. -/
def HdlTypeDec.recordShape (d : HdlTypeDec) : Bool := !d.fields.isEmpty

/-- Number of populated shapes of a type declaration, out of the three shapes
named by the spec (alias / array / record-union). -/
def HdlTypeDec.shapeCount (d : HdlTypeDec) : Nat :=
  (if d.aliasShape then 1 else 0)
    + (if d.arrayShape then 1 else 0)
    + (if d.recordShape then 1 else 0)

/-- Class `HdlTypeBitsDef`: bit / bit-vector type, slots `name`, `msb`, `lsb`,
`signed`, `is_bigendian`, `states`. -/
structure HdlTypeBitsDef where
  name : Option String
  msb : Int
  lsb : Int
  signed : Bool
  is_bigendian : Bool
  states : Nat
deriving DecidableEq, Repr

/-- Constant `HdlTypeBitsDef.STD_LOGIC_STATES = 9`. -/
def HdlTypeBitsDef.STD_LOGIC_STATES : Nat := 9

/-- Constant `HdlTypeBitsDef.WIRE_STATES = 4`. -/
def HdlTypeBitsDef.WIRE_STATES : Nat := 4

/-- Constructor `HdlTypeBitsDef(msb, lsb=0, signed=False)` with all three parameters
spelled out: `name` is set to `None` by the base `__init__` (modelled from the
spec: "optional name"), then `is_bigendian = False` and `states = 2`. -/
def HdlTypeBitsDef.mk3 (msb lsb : Int) (signed : Bool) : HdlTypeBitsDef :=
  { name := none, msb := msb, lsb := lsb, signed := signed,
    is_bigendian := false, states := 2 }

/-- Constructor call `HdlTypeBitsDef(msb)`, applied with only `msb` given,
the defaults `lsb=0`, `signed=False` filled in. -/
def HdlTypeBitsDef.mkOnlyMsb (msb : Int) : HdlTypeBitsDef :=
  HdlTypeBitsDef.mk3 msb 0 false

/-- Method `HdlTypeBitsDef.width`:
`if self.msb >= self.lsb: return self.msb - self.lsb else: return self.lsb - self.msb`. -/
def HdlTypeBitsDef.width (t : HdlTypeBitsDef) : Int :=
  if t.msb ≥ t.lsb then t.msb - t.lsb else t.lsb - t.msb

/-- The tuple `(self.msb, self.lsb, self.signed, self.is_bigendian)` that
`HdlTypeBitsDef.__hash__` hashes.  Python's `hash` is a deterministic function
of this tuple, so two nodes have equal hashes whenever their key tuples are
equal; the key tuple itself is the faithful abstraction of the hash. -/
def HdlTypeBitsDef.hashKey (t : HdlTypeBitsDef) : Int × Int × Bool × Bool :=
  (t.msb, t.lsb, t.signed, t.is_bigendian)

/-- A Python value that may be compared against an `HdlTypeBitsDef` via `==`:
either another `HdlTypeBitsDef` instance or a value of some other class
(`isinstance(other, HdlTypeBitsDef)` is then false). -/
inductive PyVal where
  | bits : HdlTypeBitsDef → PyVal
  | intVal : Int → PyVal
  | strVal : String → PyVal
  | noneVal : PyVal
deriving DecidableEq, Repr

/-- Whether a Python value is an `HdlTypeBitsDef` instance
(`isinstance(other, HdlTypeBitsDef)`). -/
def PyVal.isBits : PyVal → Bool
  | .bits _ => true
  | _ => false

/-- Method `HdlTypeBitsDef.__eq__`: `isinstance(other, HdlTypeBitsDef) and
self.msb == other.msb and self.lsb == other.lsb and self.signed == other.signed
and self.is_bigendian == other.is_bigendian`. -/
def HdlTypeBitsDef.eqPy (t : HdlTypeBitsDef) (other : PyVal) : Bool :=
  match other with
  | .bits o =>
      (t.msb == o.msb) && (t.lsb == o.lsb) && (t.signed == o.signed)
        && (t.is_bigendian == o.is_bigendian)
  | _ => false

/-- Class `HdlClassDef`: SystemVerilog class/struct/interface or VHDL record, slots
`name`, `parents`, `is_virtual`, `is_static`, `is_struct`, `is_union`,
`is_interface`, `private`, `public`, `protected` (the Lean fields for the last
three are `priv`, `pub`, `prot` because `private` and `protected` are Lean
keywords).  Since the class uses `__slots__`, a slot that was never assigned
has no value and reading it raises `AttributeError`; every slot is therefore
embedded as an `Option`-wrapped cell, `none` meaning "unassigned slot". -/
structure HdlClassDef where
  name : Option (Option String)
  parents : Option (List iHdlExpr)
  is_virtual : Option Bool
  is_static : Option Bool
  is_struct : Option Bool
  is_union : Option Bool
  is_interface : Option Bool
  priv : Option (List iHdlObj)
  pub : Option (List iHdlObj)
  prot : Option (List iHdlObj)
deriving DecidableEq, Repr

/-- Constructor `HdlClassDef()`: the `iHdlObjWithName` base `__init__`
assigns `name = None` (modelled from the spec: "optional name"); then the
body assigns `parents = []`, `is_virtual = False`, `is_static = False`,
`is_struct = False`, `is_union = False`, `private = []`, `public = []`,
`protected = []`.  No statement of either `__init__` assigns `is_interface`,
so that slot stays unassigned (`none`). -/
def HdlClassDef.init : HdlClassDef :=
  { name := some none, parents := some [],
    is_virtual := some false, is_static := some false,
    is_struct := some false, is_union := some false,
    is_interface := none,
    priv := some [], pub := some [], prot := some [] }

/-- A member of an enum declaration: `Union[str, Tuple[str, int]]` — a bare
identifier or an (identifier, explicit integer value) pair. -/
def HdlEnumMember := Sum String (String × Int)
deriving instance DecidableEq, Repr for HdlEnumMember

/-- Class `HdlEnumDef`: VHDL enumeration / SystemVerilog enum, slots `name`,
`values`. -/
structure HdlEnumDef where
  name : Option String
  values : List HdlEnumMember
deriving DecidableEq, Repr

/-- Constructor `HdlEnumDef()`: `name = None` from the base `__init__`
(modelled from the spec: "optional name"), `values = []`. -/
def HdlEnumDef.init : HdlEnumDef :=
  { name := none, values := [] }

/-- Mutation `e.values.append(v)` on an enum declaration. -/
def HdlEnumDef.appendValue (e : HdlEnumDef) (v : HdlEnumMember) : HdlEnumDef :=
  { e with values := e.values ++ [v] }

/-- Append the members `ms` to enum declaration `e`, in order. -/
def HdlEnumDef.appendAll (e : HdlEnumDef) (ms : List HdlEnumMember) : HdlEnumDef :=
  ms.foldl HdlEnumDef.appendValue e

/-- Shared helper: `width()` computes the absolute difference of the two
bounds. -/
theorem HdlTypeBitsDef.width_eq_abs (t : HdlTypeBitsDef) :
    t.width = |t.msb - t.lsb| := by
  unfold HdlTypeBitsDef.width
  rcases le_or_lt t.lsb t.msb with h | h
  · rw [if_pos h, abs_of_nonneg (by omega)]
  · rw [if_neg (by omega), abs_of_neg (by omega)]
    ring

/-- C1: for every pair of integer bounds `a`, `b` (and either signedness),
`width` of the node built with `msb=a, lsb=b` equals `width` of the node built
with `msb=b, lsb=a`, both equal to `|a − b|`; in particular
`width(msb=7, lsb=0) = 7`, the absolute difference and not the inclusive bit
count. -/
theorem width_symmetric_absolute_difference :
    ∀ (a b : Int) (sg : Bool),
      (HdlTypeBitsDef.mk3 a b sg).width = |a - b|
      ∧ (HdlTypeBitsDef.mk3 b a sg).width = |a - b|
      ∧ (HdlTypeBitsDef.mk3 a b sg).width = (HdlTypeBitsDef.mk3 b a sg).width
      ∧ (HdlTypeBitsDef.mk3 7 0 false).width = 7 := by
  intro a b sg
  have h1 : (HdlTypeBitsDef.mk3 a b sg).width = |a - b| := by
    rw [HdlTypeBitsDef.width_eq_abs]
    simp [HdlTypeBitsDef.mk3]
  have h2 : (HdlTypeBitsDef.mk3 b a sg).width = |a - b| := by
    rw [HdlTypeBitsDef.width_eq_abs]
    simp [HdlTypeBitsDef.mk3]
    exact abs_sub_comm b a
  exact ⟨h1, h2, h1.trans h2.symm, by decide⟩

/-- C2: two bit-vector nodes that agree on `(msb, lsb, signed, is_bigendian)`
compare equal under `__eq__` and have equal hash keys, even when their
`states` counts differ and their names differ: identity is defined over the
four fields only. -/
theorem bits_identity_ignores_states_and_name (msb lsb : Int) (sg be : Bool)
    (s1 s2 : Nat) (n1 n2 : Option String) (_h : s1 ≠ s2) :
    HdlTypeBitsDef.eqPy ⟨n1, msb, lsb, sg, be, s1⟩ (.bits ⟨n2, msb, lsb, sg, be, s2⟩) = true
    ∧ HdlTypeBitsDef.hashKey ⟨n1, msb, lsb, sg, be, s1⟩
        = HdlTypeBitsDef.hashKey ⟨n2, msb, lsb, sg, be, s2⟩ := by
  refine ⟨?_, rfl⟩
  simp [HdlTypeBitsDef.eqPy]

/-- Witness for C2 at `msb=7, lsb=0`, states 2 vs 9, names `None` vs `"a"`. -/
theorem bits_identity_ignores_states_and_name_witness :
    HdlTypeBitsDef.eqPy ⟨none, 7, 0, false, false, 2⟩
        (.bits ⟨some "a", 7, 0, false, false, 9⟩) = true
    ∧ HdlTypeBitsDef.hashKey ⟨none, 7, 0, false, false, 2⟩
        = HdlTypeBitsDef.hashKey ⟨some "a", 7, 0, false, false, 9⟩ :=
  bits_identity_ignores_states_and_name 7 0 false false 2 9 none (some "a") (by decide)

/-- C6 counterexample: with only `msb` given and `msb = -1`, the constructed
node's `width()` is `1`, not `msb − 0 = -1`; the claim's equation
`width() == msb − 0` fails for a negative bound. -/
theorem bits_width_not_msb_minus_zero :
    (HdlTypeBitsDef.mkOnlyMsb (-1)).width ≠ (-1 : Int) - 0 := by decide

/-- C6 amended: constructing with only `msb` yields `lsb = 0`,
`signed = false`, `is_bigendian = false`, `states = 2`, and
`width() = |msb − 0|` (which equals `msb − 0` exactly when `msb ≥ 0`; Scenario
A's `msb = 7` gives `width() = 7`). -/
theorem bits_defaults_and_width :
    ∀ msb : Int,
      (HdlTypeBitsDef.mkOnlyMsb msb).lsb = 0
      ∧ (HdlTypeBitsDef.mkOnlyMsb msb).signed = false
      ∧ (HdlTypeBitsDef.mkOnlyMsb msb).is_bigendian = false
      ∧ (HdlTypeBitsDef.mkOnlyMsb msb).states = 2
      ∧ (HdlTypeBitsDef.mkOnlyMsb msb).width = |msb - 0|
      ∧ (HdlTypeBitsDef.mkOnlyMsb 7).width = 7 := by
  intro msb
  refine ⟨rfl, rfl, rfl, rfl, ?_, by decide⟩
  rw [HdlTypeBitsDef.width_eq_abs]
  simp [HdlTypeBitsDef.mkOnlyMsb, HdlTypeBitsDef.mk3]

/-- C3 counterexample: `HdlRange()` run with its default arguments is a
constructible Range node with zero populated alternatives, refuting "no
constructible Range node has zero or more than one of the three alternatives
populated". -/
theorem range_with_zero_alternatives_constructible :
    (HdlRange.mk3 none none none).populatedCount = 0
    ∧ (HdlRange.mk3 none none none).populatedCount ≠ 1 := by
  exact ⟨rfl, by decide⟩

/-- C3 amended: a Range node carries its three alternatives as independent
optional fields; the constructor stores exactly the alternatives it is given
and enforces no exclusivity, so constructible nodes with zero populated
alternatives and with all three populated both exist, and keeping exactly one
populated is the producer's (parser's) responsibility. -/
theorem range_alternatives_are_independent_optionals :
    (∀ (s : Option HdlSubtype) (r : Option HdlSimpleRange) (a : Option iHdlExpr),
      (HdlRange.mk3 s r a).subtype = s
        ∧ (HdlRange.mk3 s r a).range = r
        ∧ (HdlRange.mk3 s r a).attrib = a)
    ∧ (∃ r0 : HdlRange, r0.populatedCount = 0)
    ∧ (∃ r3 : HdlRange, r3.populatedCount = 3) := by
  refine ⟨fun s r a => ⟨rfl, rfl, rfl⟩, ⟨HdlRange.mk3 none none none, rfl⟩, ?_⟩
  exact ⟨HdlRange.mk3 (some (HdlSubtype.mk2 none none)) (some HdlSimpleRange.init)
    (some (iHdlExpr.ident "a")), rfl⟩

/-- C4 counterexample: `HdlTypeDec()` — the freshly constructed type
declaration — has zero of the three shapes populated (`subtype = None`,
`indexes = None`, `elem_type = None`, `fields = {}`), refuting "no
constructible TypeDeclaration node has zero shapes". -/
theorem typedec_fresh_node_has_zero_shapes :
    HdlTypeDec.init.shapeCount = 0 ∧ HdlTypeDec.init.shapeCount ≠ 1 := by
  exact ⟨rfl, by decide⟩

/-- C4 amended: the shape fields of a type declaration are independent and
unconstrained: the constructor initializes all of them empty (zero shapes
populated), and nodes with more than one shape populated at once (here both
the alias and the record shape) are constructible; maintaining exactly one
shape per declared kind is caller responsibility. -/
theorem typedec_shapes_are_unconstrained :
    HdlTypeDec.init.subtype = none
    ∧ HdlTypeDec.init.indexes = none
    ∧ HdlTypeDec.init.elem_type = none
    ∧ HdlTypeDec.init.fields = []
    ∧ HdlTypeDec.init.shapeCount = 0
    ∧ ({ HdlTypeDec.init with
          subtype := some (HdlSubtype.mk2 none none),
          fields := [("f1", none)] } : HdlTypeDec).shapeCount = 2 := by
  exact ⟨rfl, rfl, rfl, rfl, rfl, rfl⟩

/-- C5: no constructor of this layer rejects its input: `HdlRange.__init__`
accepts every combination of the three alternatives — including all three
populated — and stores them unchanged; `HdlConstraint.__init__` succeeds on
any heap, yielding a node with empty containers; and a type declaration whose
shape fields are filled inconsistently (alias and record shape together) is a
perfectly well-formed node of this layer.  All the embedded constructors are
total functions: the source constructors contain no failure path. -/
theorem constructors_reject_nothing :
    (∀ (s : HdlSubtype) (r : HdlSimpleRange) (a : iHdlExpr),
      (HdlRange.mk3 (some s) (some r) (some a)).populatedCount = 3
        ∧ (HdlRange.mk3 (some s) (some r) (some a)).subtype = some s
        ∧ (HdlRange.mk3 (some s) (some r) (some a)).range = some r
        ∧ (HdlRange.mk3 (some s) (some r) (some a)).attrib = some a)
    ∧ (∀ st : PyState,
        (HdlConstraint.init st).1.range = none
          ∧ (HdlConstraint.init st).1.element = none
          ∧ (HdlConstraint.init st).2.getIndexes (HdlConstraint.init st).1 = some []
          ∧ (HdlConstraint.init st).2.getFieldCons (HdlConstraint.init st).1 = some [])
    ∧ (({ HdlTypeDec.init with
           subtype := some (HdlSubtype.mk2 none none),
           fields := [("f1", none)] } : HdlTypeDec).subtype = some (HdlSubtype.mk2 none none)
        ∧ ({ HdlTypeDec.init with
              subtype := some (HdlSubtype.mk2 none none),
              fields := [("f1", none)] } : HdlTypeDec).fields = [("f1", none)]) := by
  refine ⟨fun s r a => ⟨rfl, rfl, rfl, rfl⟩, fun st => ⟨rfl, rfl, ?_, ?_⟩, rfl, rfl⟩
  · simp [HdlConstraint.init, PyState.getIndexes, HdlConstraint.indexes]
  · simp [HdlConstraint.init, PyState.getFieldCons, HdlConstraint.field_cons]

/-- C7: evaluation of `HdlClassDef()` at the claim's input.  The constructor
does initialize `parents` to an empty list, the three visibility partitions to
empty lists and four of the five flags to `False`; but it never assigns the
declared slot `is_interface`, so that slot is unassigned (`none`) on a fresh
node and reading it raises `AttributeError` in Python, contradicting "reading
any of the five flags on a new node succeeds and returns false". -/
theorem classdef_is_interface_slot_unassigned :
    HdlClassDef.init.is_interface = none
    ∧ HdlClassDef.init.is_virtual = some false
    ∧ HdlClassDef.init.is_static = some false
    ∧ HdlClassDef.init.is_struct = some false
    ∧ HdlClassDef.init.is_union = some false
    ∧ HdlClassDef.init.parents = some []
    ∧ HdlClassDef.init.pub = some []
    ∧ HdlClassDef.init.prot = some []
    ∧ HdlClassDef.init.priv = some [] := by
  exact ⟨rfl, rfl, rfl, rfl, rfl, rfl, rfl, rfl, rfl⟩

/-- Shared helper: appending a list of members to an enum declaration appends
them, in order, to its `values`. -/
theorem HdlEnumDef.appendAll_values (e : HdlEnumDef) (ms : List HdlEnumMember) :
    (e.appendAll ms).values = e.values ++ ms := by
  induction ms generalizing e with
  | nil => simp [HdlEnumDef.appendAll]
  | cons m rest ih =>
      show (HdlEnumDef.appendAll (e.appendValue m) rest).values = _
      rw [ih]
      simp [HdlEnumDef.appendValue]

/-- C8: building an enum declaration by appending `n` members stores exactly
that member sequence, in append (declaration) order; each stored member is by
construction either a bare identifier (`Sum.inl`) or an (identifier, explicit
integer value) pair (`Sum.inr`), and a declaration mixing both — here
`RED`, `GREEN`, `(BLUE, 5)` — is representable. -/
theorem enum_members_preserve_declaration_order :
    ∀ ms : List HdlEnumMember, (HdlEnumDef.init.appendAll ms).values = ms
    ∧ (HdlEnumDef.init.appendAll
        [Sum.inl "RED", Sum.inl "GREEN", Sum.inr ("BLUE", 5)]).values
        = [Sum.inl "RED", Sum.inl "GREEN", Sum.inr ("BLUE", 5)] := by
  intro ms
  constructor
  · rw [HdlEnumDef.appendAll_values]
    simp [HdlEnumDef.init]
  · rw [HdlEnumDef.appendAll_values]
    simp [HdlEnumDef.init]

/-- C9: a freshly constructed constraint node has `range = None`, an empty
index list, `element = None` and an empty field-constraint dict, and the two
containers are freshly allocated per instance: constructing twice yields nodes
whose `indexes` and `field_cons` slots address distinct container objects, and
mutating the first node's containers (appending an index constraint, inserting
a field constraint) leaves the second node's containers untouched. -/
theorem constraint_containers_fresh_per_instance :
    ∀ (s : PyState) (x : HdlRange) (k : String) (v : HdlConstraint),
      (HdlConstraint.init s).1.range = none
      ∧ (HdlConstraint.init s).1.element = none
      ∧ (HdlConstraint.init s).1.indexes
          ≠ (HdlConstraint.init (HdlConstraint.init s).2).1.indexes
      ∧ (HdlConstraint.init s).1.field_cons
          ≠ (HdlConstraint.init (HdlConstraint.init s).2).1.field_cons
      ∧ (HdlConstraint.init (HdlConstraint.init s).2).2.getIndexes
          (HdlConstraint.init s).1 = some []
      ∧ (HdlConstraint.init (HdlConstraint.init s).2).2.getFieldCons
          (HdlConstraint.init s).1 = some []
      ∧ (HdlConstraint.init (HdlConstraint.init s).2).2.getIndexes
          (HdlConstraint.init (HdlConstraint.init s).2).1 = some []
      ∧ (HdlConstraint.init (HdlConstraint.init s).2).2.getFieldCons
          (HdlConstraint.init (HdlConstraint.init s).2).1 = some []
      ∧ ((HdlConstraint.init (HdlConstraint.init s).2).2.appendIndex
            (HdlConstraint.init s).1 x).getIndexes
            (HdlConstraint.init (HdlConstraint.init s).2).1
          = (HdlConstraint.init (HdlConstraint.init s).2).2.getIndexes
            (HdlConstraint.init (HdlConstraint.init s).2).1
      ∧ ((HdlConstraint.init (HdlConstraint.init s).2).2.insertFieldCon
            (HdlConstraint.init s).1 k v).getFieldCons
            (HdlConstraint.init (HdlConstraint.init s).2).1
          = (HdlConstraint.init (HdlConstraint.init s).2).2.getFieldCons
            (HdlConstraint.init (HdlConstraint.init s).2).1
      ∧ ((HdlConstraint.init (HdlConstraint.init s).2).2.appendIndex
            (HdlConstraint.init s).1 x).getIndexes (HdlConstraint.init s).1
          = some [x] := by
  intro s x k v
  simp only [HdlConstraint.init, HdlConstraint.range, HdlConstraint.element,
    HdlConstraint.indexes, HdlConstraint.field_cons, PyState.getIndexes,
    PyState.getFieldCons, PyState.appendIndex, PyState.insertFieldCon]
  refine ⟨trivial, trivial, by simp, by simp, ?_, ?_, ?_, ?_, ?_, ?_, ?_⟩
  · rw [List.getElem?_append]
    simp
  · rw [List.getElem?_append]
    simp
  · rw [List.append_assoc, List.getElem?_append]
    simp
  · rw [List.append_assoc, List.getElem?_append]
    simp
  · rw [List.getElem?_set_ne (by simp)]
  · rw [List.getElem?_set_ne (by simp)]
  · rw [List.getElem?_set_eq_of_lt _ (by simp), List.getElem?_append]
    simp

/-- C10: `__eq__` on bit-vector nodes is an equivalence relation (reflexive,
symmetric, transitive), a bit-vector node never compares equal to a value of
any other class (the `isinstance` guard makes `__eq__` return `False`), and
equality is consistent with hashing: equal nodes have equal hash keys. -/
theorem bits_eq_equivalence_and_hash_compatible :
    (∀ x : HdlTypeBitsDef, x.eqPy (.bits x) = true)
    ∧ (∀ x y : HdlTypeBitsDef, x.eqPy (.bits y) = y.eqPy (.bits x))
    ∧ (∀ x y z : HdlTypeBitsDef,
        x.eqPy (.bits y) = true → y.eqPy (.bits z) = true → x.eqPy (.bits z) = true)
    ∧ (∀ (x : HdlTypeBitsDef) (v : PyVal), v.isBits = false → x.eqPy v = false)
    ∧ (∀ x y : HdlTypeBitsDef, x.eqPy (.bits y) = true → x.hashKey = y.hashKey) := by
  refine ⟨?_, ?_, ?_, ?_, ?_⟩
  · intro x
    simp [HdlTypeBitsDef.eqPy]
  · intro x y
    simp only [HdlTypeBitsDef.eqPy]
    rw [Bool.eq_iff_iff]
    simp only [Bool.and_eq_true, beq_iff_eq]
    constructor
    · rintro ⟨⟨⟨h1, h2⟩, h3⟩, h4⟩
      exact ⟨⟨⟨h1.symm, h2.symm⟩, h3.symm⟩, h4.symm⟩
    · rintro ⟨⟨⟨h1, h2⟩, h3⟩, h4⟩
      exact ⟨⟨⟨h1.symm, h2.symm⟩, h3.symm⟩, h4.symm⟩
  · intro x y z hxy hyz
    simp only [HdlTypeBitsDef.eqPy, Bool.and_eq_true, beq_iff_eq] at hxy hyz ⊢
    obtain ⟨⟨⟨a1, a2⟩, a3⟩, a4⟩ := hxy
    obtain ⟨⟨⟨b1, b2⟩, b3⟩, b4⟩ := hyz
    exact ⟨⟨⟨a1.trans b1, a2.trans b2⟩, a3.trans b3⟩, a4.trans b4⟩
  · intro x v hv
    cases v with
    | bits o => simp [PyVal.isBits] at hv
    | intVal n => rfl
    | strVal r => rfl
    | noneVal => rfl
  · intro x y h
    simp only [HdlTypeBitsDef.eqPy, Bool.and_eq_true, beq_iff_eq] at h
    obtain ⟨⟨⟨h1, h2⟩, h3⟩, h4⟩ := h
    simp [HdlTypeBitsDef.hashKey, h1, h2, h3, h4]

/-- Witness for C10: transitivity, the `isinstance` guard and hash
consistency applied at concrete nodes (states and names differing). -/
theorem bits_eq_equivalence_witness :
    HdlTypeBitsDef.eqPy ⟨none, 1, 0, false, false, 2⟩
        (.bits ⟨some "n", 1, 0, false, false, 9⟩) = true
    ∧ HdlTypeBitsDef.hashKey ⟨none, 1, 0, false, false, 2⟩
        = HdlTypeBitsDef.hashKey ⟨some "n", 1, 0, false, false, 9⟩
    ∧ HdlTypeBitsDef.eqPy ⟨none, 1, 0, false, false, 2⟩ (PyVal.intVal 3) = false := by
  refine ⟨?_, ?_, ?_⟩
  · exact bits_eq_equivalence_and_hash_compatible.2.2.1
      ⟨none, 1, 0, false, false, 2⟩ ⟨some "m", 1, 0, false, false, 4⟩
      ⟨some "n", 1, 0, false, false, 9⟩ (by decide) (by decide)
  · exact bits_eq_equivalence_and_hash_compatible.2.2.2.2
      ⟨none, 1, 0, false, false, 2⟩ ⟨some "n", 1, 0, false, false, 9⟩ (by decide)
  · exact bits_eq_equivalence_and_hash_compatible.2.2.2.1
      ⟨none, 1, 0, false, false, 2⟩ (PyVal.intVal 3) (by decide)
